import Mathlib

/-
Verification of the PropRoo growth-analytics pipeline
(backend/app/analytics.py and backend/app/models.py).

Prices, ratios and derived statistics are modelled over the rationals;
the Python-level exception behaviour of the CAGR kernel is modelled with
an explicit error monad.  The pipeline itself is embedded as a pure
transformer of an explicit database state.
-/

namespace PropRoo

/-- The two exception kinds that can arise inside the numeric kernel of
calculate_cagr: Python ZeroDivisionError from a float division by zero,
and OverflowError from float exponentiation. -/
inductive PyErr where
  | zeroDivision
  | overflow
deriving DecidableEq, Repr

/-- The value produced by Python float arithmetic in the kernel.
real q is an exact real (rational) value. rpow b e off stands for the
real number b ^ e + off with positive base b and non-integral exponent e
(irrational in general, kept symbolic). complexNum b e off stands for
the non-real complex number b ** e + off that Python 3 float
exponentiation returns for a negative base with a fractional exponent
(it does not raise an exception). -/
inductive PyNum where
  | real (q : ℚ)
  | rpow (b e off : ℚ)
  | complexNum (b e off : ℚ)
deriving DecidableEq, Repr

/-- Subtracting the literal 1 from a kernel value, as in the source line
cagr = ((last_price / first_price) ** (1 / years)) - 1. -/
def pySub1 : PyNum → PyNum
  | .real q => .real (q - 1)
  | .rpow b e off => .rpow b e (off - 1)
  | .complexNum b e off => .complexNum b e (off - 1)

/-- Python float division: raises ZeroDivisionError on a zero divisor,
otherwise returns the exact quotient. -/
def pyDiv (a b : ℚ) : Except PyErr ℚ :=
  if b = 0 then .error .zeroDivision else .ok (a / b)

/-- Python float exponentiation base ** e for the exponents reachable in
calculate_cagr (e = 1 / years with years at least one half, so e is
positive).  A zero base gives 0.0.  A negative base with an integral
exponent gives the exact real power; with a fractional exponent Python 3
returns a complex number rather than raising.  A positive base with an
integral exponent is exact; with a fractional exponent the (generally
irrational) real value is kept symbolically.  Overflow of the float
range is not modelled: arithmetic is ideal rational arithmetic. -/
def pyPowOutcome (base e : ℚ) : Except PyErr PyNum :=
  if base = 0 then
    .ok (.real (if e = 0 then 1 else 0))
  else if e.den = 1 then
    .ok (.real (base ^ e.num))
  else if base < 0 then
    .ok (.complexNum base e 0)
  else
    .ok (.rpow base e 0)

/-- The try block of calculate_cagr: evaluate
((last_price / first_price) ** (1 / years)) - 1, and on ZeroDivisionError
or OverflowError (the two kinds caught by the source) substitute 0.0. -/
def cagrTry (first_price last_price years : ℚ) : PyNum :=
  match (pyDiv last_price first_price).bind (fun r => pyPowOutcome r (1 / years)) with
  | .ok v => pySub1 v
  | .error .zeroDivision => .real 0
  | .error .overflow => .real 0

/-- calculate_cagr from backend/app/analytics.py, with Python exception
flow made explicit.  If years < 0.5 the function returns cagr = 0.0 and
total growth (last - first) / first, which raises ZeroDivisionError when
first_price = 0.  Otherwise the exponentiation is guarded by the
try/except, but the total-growth division on the following source line
is outside the guard, so a zero first_price raises to the caller. -/
def calculate_cagr (first_price last_price years : ℚ) : Except PyErr (PyNum × ℚ) :=
  if years < 1/2 then
    (pyDiv (last_price - first_price) first_price).map (fun g => (PyNum.real 0, g))
  else
    (pyDiv (last_price - first_price) first_price).map
      (fun g => (cagrTry first_price last_price years, g))

/-- A calendar date as pandas sees a contract_date value: days is the
absolute day number of the date (differences of days give holding
periods), year is the calendar year component extracted by dt.year. -/
structure PyDate where
  days : ℤ
  year : ℤ
deriving DecidableEq, Repr

/-- One row of the sales table as loaded into the raw dataframe.  The
purchase_price and contract_date columns are nullable and may fail to
parse, which pandas turns into NaN / NaT (modelled as none).  The
post-code column is nullable in the schema; street and locality strings
are taken as present. -/
structure SaleRow where
  id : ℕ
  property_id : ℕ
  purchase_price : Option ℚ
  contract_date : Option PyDate
  property_street_name : String
  property_locality : String
  property_post_code : Option ℤ
deriving DecidableEq, Repr

/-- A qualifying row: a sale row whose price and date both parsed, after
the dropna on those two columns, with the derived sale_year column. -/
structure QRow where
  id : ℕ
  property_id : ℕ
  purchase_price : ℚ
  contract_date : PyDate
  sale_year : ℤ
  property_street_name : String
  property_locality : String
  property_post_code : Option ℤ
deriving DecidableEq, Repr

/-- The dropna on purchase_price and contract_date followed by the
sale_year column derivation (analytics.py lines 53 to 58). -/
def dropInvalid (sales : List SaleRow) : List QRow :=
  sales.filterMap (fun s =>
    match s.purchase_price, s.contract_date with
    | some p, some d =>
        some { id := s.id, property_id := s.property_id, purchase_price := p,
               contract_date := d, sale_year := d.year,
               property_street_name := s.property_street_name,
               property_locality := s.property_locality,
               property_post_code := s.property_post_code }
    | _, _ => none)

/-- Stable insertion of an element into a list already sorted by the
boolean comparison le: the element is placed before the first existing
element it compares le to, so earlier-inserted equals stay in front. -/
def insertLe {α : Type} (le : α → α → Bool) (a : α) : List α → List α
  | [] => [a]
  | x :: xs => if le a x then a :: x :: xs else x :: insertLe le a xs

/-- Stable insertion sort by the boolean comparison le.  This models the
sort used by pandas sort_values on several columns, which delegates to a
stable lexsort. -/
def sortLe {α : Type} (le : α → α → Bool) : List α → List α
  | [] => []
  | x :: xs => insertLe le x (sortLe le xs)

/-- Date order on qualifying rows, used for the within-property sort by
contract_date. -/
def dateLe (a b : QRow) : Bool := a.contract_date.days ≤ b.contract_date.days

/-- The first sale of a property group: head of the group after the
stable sort by contract_date (iloc 0 of the sorted group). -/
def firstSaleOf (g : List QRow) : Option QRow := (sortLe dateLe g).head?

/-- The last sale of a property group: last element of the group after
the stable sort by contract_date (iloc -1 of the sorted group). -/
def lastSaleOf (g : List QRow) : Option QRow := (sortLe dateLe g).getLast?

/-- Helper of uniqueKeys: keeps the elements not already seen, in
order, threading the set of seen elements. -/
def uniqueKeysAux {α : Type} [DecidableEq α] (seen : List α) : List α → List α
  | [] => []
  | x :: xs => if x ∈ seen then uniqueKeysAux seen xs else x :: uniqueKeysAux (x :: seen) xs

/-- The distinct keys of a list in order of first occurrence.  Pandas
groupby additionally sorts group keys, but no verified property depends
on the order in which groups are emitted. -/
def uniqueKeys {α : Type} [DecidableEq α] (l : List α) : List α :=
  uniqueKeysAux [] l

/-- The rows of a particular property, in dataframe order (the groupby
on property_id). -/
def groupOf (rows : List QRow) (pid : ℕ) : List QRow :=
  rows.filter (fun r => r.property_id = pid)

/-- One entry of the in-memory property_stats list (analytics.py lines
83 to 94): the growth record of one property together with the
denormalized address fields of its earliest sale and the year of its
latest sale.  The null post code of the first sale is mapped to 0. -/
structure PropStat where
  property_id : ℕ
  cagr : ℚ
  total_growth : ℚ
  years_held : ℚ
  last_sale_price : ℚ
  first_sale_price : ℚ
  last_sale_year : ℤ
  property_street_name : String
  property_locality : String
  property_post_code : ℤ
deriving DecidableEq, Repr

/-- A persisted row of the property_growth table.  The PropertyGrowth
model in backend/app/models.py declares exactly these six columns, so
the dict filter on PropertyGrowth table columns (analytics.py line 101)
keeps exactly these six entries of a property_stats dict. -/
structure PGRow where
  property_id : ℕ
  cagr : ℚ
  total_growth : ℚ
  years_held : ℚ
  last_sale_price : ℚ
  first_sale_price : ℚ
deriving DecidableEq, Repr

/-- The projection of an in-memory property stat onto the persisted
columns, modelling the comprehension that keeps only keys present in
PropertyGrowth table columns. -/
def toPGRow (p : PropStat) : PGRow :=
  { property_id := p.property_id, cagr := p.cagr,
    total_growth := p.total_growth, years_held := p.years_held,
    last_sale_price := p.last_sale_price,
    first_sale_price := p.first_sale_price }

/-- The numeric CAGR kernel as used by the pipeline, abstracted as a
parameter: it receives first price, last price and years held and
returns the cagr and total-growth pair.  The float value of the real
kernel is irrational in general, so the pipeline embedding is stated
for an arbitrary rational-valued kernel; the exception behaviour of the
concrete kernel is verified separately on calculate_cagr. -/
def CagrFn : Type := ℚ → ℚ → ℚ → ℚ × ℚ

/-- The growth record of one property (the body of the groupby loop at
analytics.py lines 66 to 94): none when the property has fewer than two
qualifying sales, otherwise the record built from its first and last
sale by date, with years held equal to the day difference divided by
365.25 and the address fields denormalized from the first sale. -/
def propStatFor (cagrFn : CagrFn) (rows : List QRow) (pid : ℕ) : Option PropStat :=
  let g := groupOf rows pid
  if g.length < 2 then none else
  match firstSaleOf g, lastSaleOf g with
  | some first, some last =>
      let years : ℚ := ((last.contract_date.days - first.contract_date.days : ℤ) : ℚ) / (1461/4)
      let res := cagrFn first.purchase_price last.purchase_price years
      some { property_id := pid, cagr := res.1, total_growth := res.2,
             years_held := years,
             last_sale_price := last.purchase_price,
             first_sale_price := first.purchase_price,
             last_sale_year := last.sale_year,
             property_street_name := first.property_street_name,
             property_locality := first.property_locality,
             property_post_code := (first.property_post_code).getD 0 }
  | _, _ => none

/-- The full property_stats list: one growth record for every distinct
property id with at least two qualifying sales. -/
def propertyStats (cagrFn : CagrFn) (rows : List QRow) : List PropStat :=
  (uniqueKeys (rows.map (fun r => r.property_id))).filterMap (propStatFor cagrFn rows)

/-- Mean of a list of rationals, as pandas agg mean on a nonempty
group. -/
def qmean (l : List ℚ) : ℚ := l.sum / l.length

/-- The street-level grouping key: street name, locality and the
(already defaulted) post code. -/
def streetKeyOf (p : PropStat) : String × String × ℤ :=
  (p.property_street_name, p.property_locality, p.property_post_code)

/-- The growth records eligible for year y under the inclusion rule of
analytics.py line 125: a property is included iff its last sale year is
greater than or equal to y. -/
def activeStats (stats : List PropStat) (y : ℤ) : List PropStat :=
  stats.filter (fun p => y ≤ p.last_sale_year)

/-- The eligible growth records of one street group in year y: the
rows of the year filter that carry the given street key. -/
def streetGroup (stats : List PropStat) (y : ℤ) (k : String × String × ℤ) : List PropStat :=
  (activeStats stats y).filter (fun p => streetKeyOf p = k)

/-- The eligible growth records of one suburb group in year y. -/
def suburbGroup (stats : List PropStat) (y : ℤ) (k : String) : List PropStat :=
  (activeStats stats y).filter (fun p => p.property_locality = k)

/-- One row of the street_growth table. -/
structure SGRow where
  street_name : String
  suburb : String
  post_code : ℤ
  year : ℤ
  avg_cagr : ℚ
  property_count : ℕ
deriving DecidableEq, Repr

/-- One row of the suburb_growth table. -/
structure SubGRow where
  suburb : String
  year : ℤ
  avg_cagr : ℚ
  property_count : ℕ
deriving DecidableEq, Repr

/-- The analysis years, range(2001, 2026) at analytics.py line 115: the
integers 2001 to 2025 inclusive, a hard-coded constant. -/
def yearsRange : List ℤ := (List.range 25).map (fun i => 2001 + (i : ℤ))

/-- The street-year rows produced for one year y (analytics.py lines
122 to 144): nothing when no property is eligible for y, otherwise one
row per street key among the eligible records, with the mean of their
cagr values and their count. -/
def streetRecordsFor (stats : List PropStat) (y : ℤ) : List SGRow :=
  if activeStats stats y = [] then [] else
  (uniqueKeys ((activeStats stats y).map streetKeyOf)).map (fun k =>
    let g := streetGroup stats y k
    { street_name := k.1, suburb := k.2.1, post_code := k.2.2, year := y,
      avg_cagr := qmean (g.map (fun p => p.cagr)),
      property_count := g.length })

/-- The suburb-year rows produced for one year y (analytics.py lines
146 to 158), guarded by the same emptiness check on the eligible set. -/
def suburbRecordsFor (stats : List PropStat) (y : ℤ) : List SubGRow :=
  if activeStats stats y = [] then [] else
  (uniqueKeys ((activeStats stats y).map (fun p => p.property_locality))).map (fun k =>
    let g := suburbGroup stats y k
    { suburb := k, year := y,
      avg_cagr := qmean (g.map (fun p => p.cagr)),
      property_count := g.length })

/-- All street-year rows over the analysis range. -/
def streetRecords (stats : List PropStat) : List SGRow :=
  yearsRange.flatMap (streetRecordsFor stats)

/-- All suburb-year rows over the analysis range. -/
def suburbRecords (stats : List PropStat) : List SubGRow :=
  yearsRange.flatMap (suburbRecordsFor stats)

/-- One row of the street_summary table.  avg_cagr is nullable: a
street with no qualifying growth record gets a null average from the
left join. -/
structure SSRow where
  street_name : String
  suburb : String
  post_code : ℤ
  unique_properties : ℕ
  total_sales : ℕ
  avg_cagr : Option ℚ
  is_top_performer : ℕ
deriving DecidableEq, Repr

/-- One row of the suburb_summary table. -/
structure SubSRow where
  suburb : String
  unique_properties : ℕ
  total_sales : ℕ
  avg_cagr : Option ℚ
  is_top_performer : ℕ
deriving DecidableEq, Repr

/-- Rational comparison as a boolean, for sorting quantile inputs. -/
def qle (a b : ℚ) : Bool := a ≤ b

/-- The 0.9 quantile of a nonempty list of values with linear
interpolation between the two adjacent order statistics, the default
interpolation of the pandas quantile method: with n sorted values the
rank position is 0.9 * (n - 1), and the result interpolates between the
values at its floor and the next index. -/
def quantile09 (l : List ℚ) : ℚ :=
  let s := sortLe qle l
  let h : ℚ := 9/10 * ((s.length : ℚ) - 1)
  let lo : ℕ := h.floor.toNat
  let a := s.getD lo 0
  let b := s.getD (lo + 1) a
  a + (h - (lo : ℚ)) * (b - a)

/-- The top-performer flag of one summary row given the threshold: the
comparison avg_cagr greater-or-equal threshold cast to int, where a
null average compares false (NaN comparisons are false in pandas), so a
null average never yields the flag. -/
def topFlag (avg : Option ℚ) (t : ℚ) : ℕ :=
  match avg with
  | none => 0
  | some v => if t ≤ v then 1 else 0

/-- The street keys of the raw (post-dropna) dataframe groupby at
analytics.py line 178.  Rows whose post code is null are dropped by the
groupby, because pandas excludes groups whose key contains NaN. -/
def rawStreetKeys (rows : List QRow) : List (String × String × ℤ) :=
  uniqueKeys (rows.filterMap (fun r =>
    (r.property_post_code).map (fun pc => (r.property_street_name, r.property_locality, pc))))

/-- The raw rows of one street summary group. -/
def rawStreetGroup (rows : List QRow) (k : String × String × ℤ) : List QRow :=
  rows.filter (fun r =>
    (r.property_street_name, r.property_locality, r.property_post_code) = (k.1, k.2.1, some k.2.2))

/-- The averaged lifetime cagr of one street key over the growth
records, as produced by the groupby mean at analytics.py line 184 and
attached by the left join: none when no growth record carries the
key. -/
def streetAvgLookup (stats : List PropStat) (k : String × String × ℤ) : Option ℚ :=
  let g := stats.filter (fun p => streetKeyOf p = k)
  if g = [] then none else some (qmean (g.map (fun p => p.cagr)))

/-- The non-null entries of the avg_cagr column of the merged street
summary frame, the input of the quantile threshold. -/
def streetAvgValues (rows : List QRow) (stats : List PropStat) : List ℚ :=
  (rawStreetKeys rows).filterMap (streetAvgLookup stats)

/-- The street top-performer threshold (analytics.py line 191): the 0.9
quantile of the non-null averages, or 0 when every average is null. -/
def streetThreshold (rows : List QRow) (stats : List PropStat) : ℚ :=
  if streetAvgValues rows stats = [] then 0 else quantile09 (streetAvgValues rows stats)

/-- The street_summary rows (analytics.py lines 176 to 204): one row
per raw street group carrying the distinct-property count and raw row
count of the group, the joined average cagr, and the thresholded
top-performer flag. -/
def streetSummaryRows (rows : List QRow) (stats : List PropStat) : List SSRow :=
  (rawStreetKeys rows).map (fun k =>
    let g := rawStreetGroup rows k
    let avg := streetAvgLookup stats k
    { street_name := k.1, suburb := k.2.1, post_code := k.2.2,
      unique_properties := (uniqueKeys (g.map (fun r => r.property_id))).length,
      total_sales := g.length,
      avg_cagr := avg,
      is_top_performer := topFlag avg (streetThreshold rows stats) })

/-- The suburb keys of the raw dataframe groupby at analytics.py line
212 (locality strings, never null in the model). -/
def rawSuburbKeys (rows : List QRow) : List String :=
  uniqueKeys (rows.map (fun r => r.property_locality))

/-- The raw rows of one suburb summary group. -/
def rawSuburbGroup (rows : List QRow) (k : String) : List QRow :=
  rows.filter (fun r => r.property_locality = k)

/-- The averaged lifetime cagr of one suburb over the growth records,
attached by the left join at analytics.py line 221. -/
def suburbAvgLookup (stats : List PropStat) (k : String) : Option ℚ :=
  let g := stats.filter (fun p => p.property_locality = k)
  if g = [] then none else some (qmean (g.map (fun p => p.cagr)))

/-- The non-null entries of the avg_cagr column of the merged suburb
summary frame. -/
def suburbAvgValues (rows : List QRow) (stats : List PropStat) : List ℚ :=
  (rawSuburbKeys rows).filterMap (suburbAvgLookup stats)

/-- The suburb top-performer threshold (analytics.py line 223). -/
def suburbThreshold (rows : List QRow) (stats : List PropStat) : ℚ :=
  if suburbAvgValues rows stats = [] then 0 else quantile09 (suburbAvgValues rows stats)

/-- The suburb_summary rows (analytics.py lines 211 to 234). -/
def suburbSummaryRows (rows : List QRow) (stats : List PropStat) : List SubSRow :=
  (rawSuburbKeys rows).map (fun k =>
    let g := rawSuburbGroup rows k
    let avg := suburbAvgLookup stats k
    { suburb := k,
      unique_properties := (uniqueKeys (g.map (fun r => r.property_id))).length,
      total_sales := g.length,
      avg_cagr := avg,
      is_top_performer := topFlag avg (suburbThreshold rows stats) })

/-- The five derived tables of the store. -/
structure DB where
  property_growth : List PGRow
  street_growth : List SGRow
  suburb_growth : List SubGRow
  street_summary : List SSRow
  suburb_summary : List SubSRow
deriving DecidableEq, Repr

/-- calculate_growth_metrics from backend/app/analytics.py as a pure
transformer of the database state, parameterized by the numeric CAGR
kernel.  An empty sales table returns before any table is touched.  The
property_growth table is wiped and refilled with the projected growth
records; when no growth record exists the function returns there,
leaving the four later tables untouched.  Otherwise every later table
is wiped and refilled (delete then bulk insert; the chunking of the
inserts does not change the resulting table contents). -/
def calculate_growth_metrics (cagrFn : CagrFn) (sales : List SaleRow) (db : DB) : DB :=
  if sales = [] then db else
  let rows := dropInvalid sales
  let stats := propertyStats cagrFn rows
  let db1 : DB := { db with property_growth := stats.map toPGRow }
  if stats = [] then db1 else
  { db1 with
    street_growth := streetRecords stats,
    suburb_growth := suburbRecords stats,
    street_summary := streetSummaryRows rows stats,
    suburb_summary := suburbSummaryRows rows stats }

/-- The smallest contract-date day number among a list of qualifying
rows, none for the empty list. -/
def minDays? : List QRow → Option ℤ
  | [] => none
  | r :: rs =>
    match minDays? rs with
    | none => some r.contract_date.days
    | some m => some (min r.contract_date.days m)

/-- The largest contract-date day number among a list of qualifying
rows, none for the empty list. -/
def maxDays? : List QRow → Option ℤ
  | [] => none
  | r :: rs =>
    match maxDays? rs with
    | none => some r.contract_date.days
    | some m => some (max r.contract_date.days m)

/-- Specification-side reading of the first sale, following the spec
wording: the record with the earliest contract date, and when several
records share that date, the one earliest in original row order. -/
def specFirstSale (l : List QRow) : Option QRow :=
  (minDays? l).bind (fun m => l.find? (fun r => r.contract_date.days = m))

/-- Specification-side reading of the last sale, following the spec
wording: the record with the latest contract date, and when several
records share that date, the one latest in original row order. -/
def specLastSale (l : List QRow) : Option QRow :=
  (maxDays? l).bind (fun m => l.reverse.find? (fun r => r.contract_date.days = m))

/-- Proof intermediate: the earliest-by-date element of a list, keeping
the earlier listed element on date ties. -/
def firstMin : List QRow → Option QRow
  | [] => none
  | x :: xs =>
    match firstMin xs with
    | none => some x
    | some y => some (if dateLe x y then x else y)

/-- Proof intermediate: the latest-by-date element of a list, keeping
the later listed element on date ties. -/
def lastMax : List QRow → Option QRow
  | [] => none
  | x :: xs =>
    match lastMax xs with
    | none => some x
    | some y => some (if dateLe x y then y else x)

/-- A simple concrete CAGR kernel used to instantiate the pipeline in
concrete evaluations: it returns the total growth for both
components. -/
def exCagrFn : CagrFn := fun f l _ => ((l - f) / f, (l - f) / f)

/-- An empty database state. -/
def exDB0 : DB := ⟨[], [], [], [], []⟩

/-- A database state with one arbitrary row in every derived table,
used to observe which tables a run leaves untouched. -/
def exDB1 : DB :=
  ⟨[⟨7, 1, 1, 1, 1, 1⟩], [⟨"S", "L", 9, 2001, 0, 1⟩], [⟨"L", 2001, 0, 1⟩],
   [⟨"S", "L", 9, 1, 1, some 0, 0⟩], [⟨"L", 1, 1, some 0, 0⟩]⟩

/-- Concrete sales: two properties with two parseable sales each, on
two streets of one suburb.  Property 10 keeps its price, property 11
doubles it. -/
def exSales : List SaleRow :=
  [⟨1, 10, some 100, some ⟨0, 2000⟩, "A st", "Subx", some 2000⟩,
   ⟨2, 10, some 100, some ⟨3652, 2010⟩, "A st", "Subx", some 2000⟩,
   ⟨3, 11, some 100, some ⟨0, 2000⟩, "B st", "Subx", some 2001⟩,
   ⟨4, 11, some 200, some ⟨3652, 2010⟩, "B st", "Subx", some 2001⟩]

/-- The concrete sales extended with a property that has a single raw
sale row whose price does not parse, on the first street. -/
def exSalesC8 : List SaleRow :=
  exSales ++ [⟨5, 12, none, some ⟨100, 2000⟩, "A st", "Subx", some 2000⟩]

/-- A single parseable sale row of one property: one qualifying sale,
so no growth record can be derived. -/
def exSaleSingle : SaleRow := ⟨1, 10, some 100, some ⟨0, 2000⟩, "A st", "Subx", some 2000⟩

/-- Two sales of one property: bought at 100 in year 2000 and sold at
100 ten years (3652 days) later, on street A. -/
def exSalesA : List SaleRow :=
  [⟨1, 10, some 100, some ⟨0, 2000⟩, "A st", "Subx", some 2000⟩,
   ⟨2, 10, some 100, some ⟨3652, 2010⟩, "A st", "Subx", some 2000⟩]

/-- Two sales of the same property with the same prices and the same
day distance as exSalesA, but shifted by 1000 days (so the last sale
year is 2012) and on street B: the in-memory growth stats differ in
street and last sale year, while every persisted column agrees. -/
def exSalesB : List SaleRow :=
  [⟨1, 10, some 100, some ⟨1000, 2003⟩, "B st", "Suby", some 2001⟩,
   ⟨2, 10, some 100, some ⟨4652, 2012⟩, "B st", "Suby", some 2001⟩]

/-- A concrete growth stat with last sale year 2010. -/
def exStat : PropStat := ⟨10, 0, 0, 10, 100, 100, 2010, "A st", "Subx", 2000⟩

/-- A concrete growth stat whose last sale year is 2026, outside the
hard-coded aggregation range. -/
def exStat2026 : PropStat := ⟨10, 0, 0, 10, 100, 100, 2026, "A st", "Subx", 2000⟩

/-- The street summary row of street A in the exSalesC8 run. -/
def exSSRowC8 : SSRow := ⟨"A st", "Subx", 2000, 1, 2, some 0, 0⟩

/-- The persisted growth row of property 10 in the exSalesA run. -/
def exPGRowA : PGRow := ⟨10, 0, 0, 14608/1461, 100, 100⟩

/-- C10: for every input with first price 0, calculate_cagr raises
ZeroDivisionError to its caller: directly in the short-holding branch,
and in the long-holding branch because the total-growth division sits
outside the try block, even though the guarded exponentiation has
already substituted cagr = 0.0 there. -/
theorem cagr_zero_first_price_raises (last_price years : ℚ) :
    calculate_cagr 0 last_price years = .error .zeroDivision ∧
    (¬ years < 1/2 → cagrTry 0 last_price years = .real 0) := by
  constructor
  · unfold calculate_cagr
    split <;> simp [pyDiv, Except.map]
  · intro h
    unfold cagrTry
    simp [pyDiv, Except.bind]

/-- Witness for cagr_zero_first_price_raises at last price 200 held for
2 years. -/
theorem cagr_zero_first_price_raises_witness :
    calculate_cagr 0 200 2 = .error .zeroDivision ∧ cagrTry 0 200 2 = .real 0 := by
  have h := cagr_zero_first_price_raises 200 2
  exact ⟨h.1, h.2 (by norm_num)⟩

/-- C5 counterexample: at first price 100, last price -50 and 2 years
the exponentiation produces a non-real result (negative base with
exponent one half), yet the calculator returns that complex value as
cagr rather than substituting 0.0, so the claimed fallback does not
cover the non-real case. -/
theorem cagr_nonreal_counterexample :
    calculate_cagr 100 (-50) 2 =
      .ok (.complexNum (-(1 : ℚ)/2) (1/2) (-1), -(3 : ℚ)/2) ∧
    PyNum.complexNum (-(1 : ℚ)/2) (1/2) (-1) ≠ PyNum.real 0 := by
  constructor
  · with_unfolding_all rfl
  · with_unfolding_all decide

/-- C5 amended: for holding periods of at least half a year, a zero
first price raises ZeroDivisionError to the caller (the total-growth
division is outside the guard); for a nonzero first price the call
returns the total growth together with the guarded cagr value, and when
the price ratio is negative and the exponent fractional that cagr value
is the non-real complex power minus one, returned as-is instead of
being replaced by 0.0. -/
theorem cagr_guard_behaviour (first_price last_price years : ℚ) (h : 1/2 ≤ years) :
    (first_price = 0 → calculate_cagr first_price last_price years = .error .zeroDivision) ∧
    (first_price ≠ 0 → calculate_cagr first_price last_price years =
        .ok (cagrTry first_price last_price years, (last_price - first_price) / first_price)) ∧
    (first_price ≠ 0 → last_price / first_price < 0 → (1 / years).den ≠ 1 →
        cagrTry first_price last_price years =
          .complexNum (last_price / first_price) (1 / years) (-1)) := by
  have hny : ¬ years < 1/2 := not_lt.mpr h
  refine ⟨?_, ?_, ?_⟩
  · intro h0
    unfold calculate_cagr
    rw [if_neg hny]
    simp [pyDiv, h0, Except.map]
  · intro h0
    unfold calculate_cagr
    rw [if_neg hny]
    simp [pyDiv, h0, Except.map]
  · intro h0 hneg hden
    unfold cagrTry
    simp only [pyDiv, if_neg h0, Except.bind]
    unfold pyPowOutcome
    rw [if_neg (ne_of_lt hneg), if_neg hden, if_pos hneg]
    show pySub1 (.complexNum (last_price / first_price) (1 / years) 0) = _
    unfold pySub1
    norm_num

/-- Witness for cagr_guard_behaviour at first price 100, last price -50
and 2 years. -/
theorem cagr_guard_behaviour_witness :
    calculate_cagr 100 (-50) 2 =
      .ok (cagrTry 100 (-50) 2, ((-50 : ℚ) - 100) / 100) ∧
    cagrTry 100 (-50) 2 = .complexNum ((-50 : ℚ) / 100) ((1 : ℚ) / 2) (-1) := by
  have h := cagr_guard_behaviour 100 (-50) 2 (by norm_num)
  exact ⟨h.2.1 (by norm_num), h.2.2 (by norm_num) (by norm_num) (by with_unfolding_all decide)⟩

/-- C2: the aggregation years are the hard-coded constants 2001 to 2025
(range(2001, 2026) in the source), not the calendar year of the run: a
growth record with last sale year 2026 is eligible for a 2026 window
under the inclusion rule, and rows are produced for 2025, yet no
street-year or suburb-year row for 2026 is ever produced. -/
theorem aggregation_years_hardcoded :
    (2026 : ℤ) ∉ yearsRange ∧ (2025 : ℤ) ∈ yearsRange ∧
    2026 ≤ exStat2026.last_sale_year ∧
    (streetRecords [exStat2026]).filter (fun r => r.year = 2026) = [] ∧
    (streetRecords [exStat2026]).filter (fun r => r.year = 2025) ≠ [] ∧
    (suburbRecords [exStat2026]).filter (fun r => r.year = 2026) = [] := by
  with_unfolding_all decide

/-- C9: an empty raw sale set leaves the whole database unchanged, and
whenever property-growth derivation yields no records the four later
tables are left untouched. -/
theorem growth_metrics_frame (cagrFn : CagrFn) (sales : List SaleRow) (db : DB) :
    (sales = [] → calculate_growth_metrics cagrFn sales db = db) ∧
    (propertyStats cagrFn (dropInvalid sales) = [] →
      (calculate_growth_metrics cagrFn sales db).street_growth = db.street_growth ∧
      (calculate_growth_metrics cagrFn sales db).suburb_growth = db.suburb_growth ∧
      (calculate_growth_metrics cagrFn sales db).street_summary = db.street_summary ∧
      (calculate_growth_metrics cagrFn sales db).suburb_summary = db.suburb_summary) := by
  constructor
  · intro h
    simp [calculate_growth_metrics, h]
  · intro h
    by_cases hs : sales = []
    · simp [calculate_growth_metrics, hs]
    · simp [calculate_growth_metrics, hs, h]

/-- Witness for growth_metrics_frame: the empty input leaves the
populated database exactly as it was, and a single-sale input leaves
the street summary untouched. -/
theorem growth_metrics_frame_witness :
    calculate_growth_metrics exCagrFn [] exDB1 = exDB1 ∧
    (calculate_growth_metrics exCagrFn [exSaleSingle] exDB1).street_summary =
      exDB1.street_summary := by
  have h1 := growth_metrics_frame exCagrFn [] exDB1
  have h2 := growth_metrics_frame exCagrFn [exSaleSingle] exDB1
  exact ⟨h1.1 rfl, (h2.2 (by with_unfolding_all decide)).2.2.1⟩

/-- C4 counterexample: in the concrete run on exSales the street
summary has two rows with averages 0 and 1, the interpolated threshold
is 0.9, and exactly one of the two rows is flagged, so the flagged
fraction is one half, far above the claimed bound of ten percent. -/
theorem top_flag_fraction_counterexample :
    ((calculate_growth_metrics exCagrFn exSales exDB0).street_summary.filter
        (fun r => r.is_top_performer = 1)).length = 1 ∧
    (calculate_growth_metrics exCagrFn exSales exDB0).street_summary.length = 2 ∧
    ¬ (10 * ((calculate_growth_metrics exCagrFn exSales exDB0).street_summary.filter
        (fun r => r.is_top_performer = 1)).length ≤
          (calculate_growth_metrics exCagrFn exSales exDB0).street_summary.length) := by
  with_unfolding_all decide

/-- Helper: for a nonempty sales list the persisted property growth
table is the projection of the derived growth stats. -/
theorem pg_table_eq (cagrFn : CagrFn) (sales : List SaleRow) (db : DB) (hs : sales ≠ []) :
    (calculate_growth_metrics cagrFn sales db).property_growth =
      (propertyStats cagrFn (dropInvalid sales)).map toPGRow := by
  by_cases h : propertyStats cagrFn (dropInvalid sales) = [] <;>
    simp [calculate_growth_metrics, hs, h]

/-- Helper: for a nonempty sales list with a nonempty derived growth
set, the four later tables are the freshly computed aggregates. -/
theorem derived_tables_eq (cagrFn : CagrFn) (sales : List SaleRow) (db : DB)
    (hs : sales ≠ []) (hst : propertyStats cagrFn (dropInvalid sales) ≠ []) :
    (calculate_growth_metrics cagrFn sales db).street_growth =
      streetRecords (propertyStats cagrFn (dropInvalid sales)) ∧
    (calculate_growth_metrics cagrFn sales db).suburb_growth =
      suburbRecords (propertyStats cagrFn (dropInvalid sales)) ∧
    (calculate_growth_metrics cagrFn sales db).street_summary =
      streetSummaryRows (dropInvalid sales) (propertyStats cagrFn (dropInvalid sales)) ∧
    (calculate_growth_metrics cagrFn sales db).suburb_summary =
      suburbSummaryRows (dropInvalid sales) (propertyStats cagrFn (dropInvalid sales)) := by
  simp [calculate_growth_metrics, hs, hst]

set_option maxRecDepth 2000 in
/-- C6 counterexample: the runs on exSalesA and exSalesB produce
identical persisted property-growth tables although the two inputs
differ in street name, suburb, post code and last sale year, so the
persisted rows cannot be carrying those attributes: the schema keeps
only the six modelled columns. -/
theorem persisted_growth_counterexample :
    (calculate_growth_metrics exCagrFn exSalesA exDB0).property_growth =
      (calculate_growth_metrics exCagrFn exSalesB exDB0).property_growth ∧
    (propertyStats exCagrFn (dropInvalid exSalesA)).map toPGRow = [exPGRowA] ∧
    (propertyStats exCagrFn (dropInvalid exSalesB)).map toPGRow = [exPGRowA] ∧
    (propertyStats exCagrFn (dropInvalid exSalesA)).map
      (fun p => p.property_street_name) = ["A st"] ∧
    (propertyStats exCagrFn (dropInvalid exSalesB)).map
      (fun p => p.property_street_name) = ["B st"] ∧
    (propertyStats exCagrFn (dropInvalid exSalesA)).map
      (fun p => p.last_sale_year) = [2010] ∧
    (propertyStats exCagrFn (dropInvalid exSalesB)).map
      (fun p => p.last_sale_year) = [2012] := by
  have hA : (propertyStats exCagrFn (dropInvalid exSalesA)).map toPGRow = [exPGRowA] := by
    simp [propertyStats, dropInvalid, exSalesA, uniqueKeys, uniqueKeysAux, groupOf,
      propStatFor, firstSaleOf, lastSaleOf, sortLe, insertLe, dateLe, toPGRow, exCagrFn,
      exPGRowA]
    norm_num
  have hB : (propertyStats exCagrFn (dropInvalid exSalesB)).map toPGRow = [exPGRowA] := by
    simp [propertyStats, dropInvalid, exSalesB, uniqueKeys, uniqueKeysAux, groupOf,
      propStatFor, firstSaleOf, lastSaleOf, sortLe, insertLe, dateLe, toPGRow, exCagrFn,
      exPGRowA]
    norm_num
  refine ⟨?_, hA, hB, ?_, ?_, ?_, ?_⟩
  · rw [pg_table_eq exCagrFn exSalesA exDB0 (by with_unfolding_all decide),
        pg_table_eq exCagrFn exSalesB exDB0 (by with_unfolding_all decide), hA, hB]
  all_goals with_unfolding_all decide

set_option maxRecDepth 2200 in
/-- C8 counterexample: property 12 has one raw sale row whose price
does not parse; the row is dropped before the summary grouping, so the
street summary of street A counts 2 sales although the street has 3 raw
sale rows, and the suburb summary counts 4 sales against 5 raw rows:
the raw rows that fail to parse are not counted in total sales. -/
theorem total_sales_counterexample :
    (exSalesC8.filter (fun s => s.property_id = 12)).length = 1 ∧
    (dropInvalid exSalesC8).filter (fun r => r.property_id = 12) = [] ∧
    (streetSummaryRows (dropInvalid exSalesC8)
        (propertyStats exCagrFn (dropInvalid exSalesC8))).map
      (fun r => (r.street_name, r.total_sales)) = [("A st", 2), ("B st", 2)] ∧
    (exSalesC8.filter (fun s => s.property_street_name = "A st")).length = 3 ∧
    (suburbSummaryRows (dropInvalid exSalesC8)
        (propertyStats exCagrFn (dropInvalid exSalesC8))).map
      (fun r => (r.suburb, r.total_sales)) = [("Subx", 4)] ∧
    (exSalesC8.filter (fun s => s.property_locality = "Subx")).length = 5 := by
  refine ⟨?_, ?_, ?_, ?_, ?_, ?_⟩ <;> with_unfolding_all decide

/-- The street summary row of street A in the exSales run. -/
def exSSRowA : SSRow := ⟨"A st", "Subx", 2000, 1, 2, some 0, 0⟩

/-- The street summary row of street B in the exSales run: flagged,
since its average of 1 reaches the interpolated threshold 0.9. -/
def exSSRowB : SSRow := ⟨"B st", "Subx", 2001, 1, 2, some 1, 1⟩

/-- C1: a growth record is included in the year y street or suburb
aggregation exactly when its last sale year is at least y, so the
eligible populations only shrink as y grows: every record eligible in
year y+1, in any street or suburb group, is eligible in year y. -/
theorem year_window_inclusion_monotone (stats : List PropStat) (y : ℤ) :
    (∀ p, p ∈ activeStats stats y ↔ p ∈ stats ∧ y ≤ p.last_sale_year) ∧
    (∀ p, p ∈ activeStats stats (y + 1) → p ∈ activeStats stats y) ∧
    (∀ k p, p ∈ streetGroup stats (y + 1) k → p ∈ streetGroup stats y k) ∧
    (∀ k p, p ∈ suburbGroup stats (y + 1) k → p ∈ suburbGroup stats y k) := by
  refine ⟨fun p => ?_, fun p hp => ?_, fun k p hp => ?_, fun k p hp => ?_⟩
  · simp [activeStats, List.mem_filter]
  · simp only [activeStats, List.mem_filter, decide_eq_true_eq] at hp ⊢
    exact ⟨hp.1, by omega⟩
  · simp only [streetGroup, activeStats, List.mem_filter, decide_eq_true_eq] at hp ⊢
    exact ⟨⟨hp.1.1, by omega⟩, hp.2⟩
  · simp only [suburbGroup, activeStats, List.mem_filter, decide_eq_true_eq] at hp ⊢
    exact ⟨⟨hp.1.1, by omega⟩, hp.2⟩

set_option maxRecDepth 2200 in
/-- Witness for year_window_inclusion_monotone: the 2010 record is in
the 2009 population, street group and suburb group because it is in the
2010 ones. -/
theorem year_window_inclusion_monotone_witness :
    exStat ∈ activeStats [exStat] 2009 ∧
    exStat ∈ streetGroup [exStat] 2009 (streetKeyOf exStat) ∧
    exStat ∈ suburbGroup [exStat] 2009 "Subx" := by
  have h := year_window_inclusion_monotone [exStat] 2009
  exact ⟨h.2.1 exStat (by with_unfolding_all decide),
         h.2.2.1 (streetKeyOf exStat) exStat (by with_unfolding_all decide),
         h.2.2.2 "Subx" exStat (by with_unfolding_all decide)⟩

/-- C3: the non-null averages feeding the quantile are exactly the
non-null avg_cagr entries of the produced summary rows; the threshold
is their 0.9 quantile, or 0 when every average is null; and a row is
flagged exactly when its average is non-null and at least the
threshold.  Streets and suburbs are treated independently. -/
theorem top_flag_threshold_spec (rows : List QRow) (stats : List PropStat) :
    (streetSummaryRows rows stats).filterMap (fun r => r.avg_cagr) =
      streetAvgValues rows stats ∧
    (streetAvgValues rows stats = [] → streetThreshold rows stats = 0) ∧
    (streetAvgValues rows stats ≠ [] →
      streetThreshold rows stats = quantile09 (streetAvgValues rows stats)) ∧
    (∀ r, r ∈ streetSummaryRows rows stats →
      (r.is_top_performer = 1 ↔
        ∃ v, r.avg_cagr = some v ∧ streetThreshold rows stats ≤ v)) ∧
    (suburbSummaryRows rows stats).filterMap (fun r => r.avg_cagr) =
      suburbAvgValues rows stats ∧
    (suburbAvgValues rows stats = [] → suburbThreshold rows stats = 0) ∧
    (suburbAvgValues rows stats ≠ [] →
      suburbThreshold rows stats = quantile09 (suburbAvgValues rows stats)) ∧
    (∀ r, r ∈ suburbSummaryRows rows stats →
      (r.is_top_performer = 1 ↔
        ∃ v, r.avg_cagr = some v ∧ suburbThreshold rows stats ≤ v)) := by
  refine ⟨?_, fun h => ?_, fun h => ?_, fun r hr => ?_, ?_, fun h => ?_, fun h => ?_,
    fun r hr => ?_⟩
  · simp only [streetSummaryRows, List.filterMap_map]
    rfl
  · simp [streetThreshold, h]
  · simp [streetThreshold, h]
  · simp only [streetSummaryRows, List.mem_map] at hr
    obtain ⟨k, hk, rfl⟩ := hr
    rcases h : streetAvgLookup stats k with _ | v
    · simp [topFlag, h]
    · by_cases hle : streetThreshold rows stats ≤ v <;> simp [topFlag, h, hle]
  · simp only [suburbSummaryRows, List.filterMap_map]
    rfl
  · simp [suburbThreshold, h]
  · simp [suburbThreshold, h]
  · simp only [suburbSummaryRows, List.mem_map] at hr
    obtain ⟨k, hk, rfl⟩ := hr
    rcases h : suburbAvgLookup stats k with _ | v
    · simp [topFlag, h]
    · by_cases hle : suburbThreshold rows stats ≤ v <;> simp [topFlag, h, hle]

set_option maxRecDepth 2200 in
/-- Witness for top_flag_threshold_spec: in the exSales run the
averages are non-null, so the street threshold is the 0.9 quantile of
the collected averages. -/
theorem top_flag_threshold_spec_witness :
    streetThreshold (dropInvalid exSales) (propertyStats exCagrFn (dropInvalid exSales)) =
      quantile09 (streetAvgValues (dropInvalid exSales)
        (propertyStats exCagrFn (dropInvalid exSales))) := by
  have h := top_flag_threshold_spec (dropInvalid exSales)
    (propertyStats exCagrFn (dropInvalid exSales))
  exact h.2.2.1 (by with_unfolding_all decide)

/-- C4 amended: in every summary set, every flagged row carries a
non-null average at least as large as every unflagged row with a
non-null average. -/
theorem top_flag_ordering (rows : List QRow) (stats : List PropStat) :
    (∀ r1, r1 ∈ streetSummaryRows rows stats → ∀ r2, r2 ∈ streetSummaryRows rows stats →
      r1.is_top_performer = 1 → r2.is_top_performer ≠ 1 → ∀ v2, r2.avg_cagr = some v2 →
        ∃ v1, r1.avg_cagr = some v1 ∧ v2 ≤ v1) ∧
    (∀ r1, r1 ∈ suburbSummaryRows rows stats → ∀ r2, r2 ∈ suburbSummaryRows rows stats →
      r1.is_top_performer = 1 → r2.is_top_performer ≠ 1 → ∀ v2, r2.avg_cagr = some v2 →
        ∃ v1, r1.avg_cagr = some v1 ∧ v2 ≤ v1) := by
  constructor
  · intro r1 h1 r2 h2 hf1 hf2 v2 hv2
    simp only [streetSummaryRows, List.mem_map] at h1 h2
    obtain ⟨k1, hk1, rfl⟩ := h1
    obtain ⟨k2, hk2, rfl⟩ := h2
    rcases h : streetAvgLookup stats k1 with _ | v1
    · simp [topFlag, h] at hf1
    · refine ⟨v1, by simp only [h], ?_⟩
      simp only at hv2
      rw [hv2] at hf2
      by_cases hle1 : streetThreshold rows stats ≤ v1
      · by_cases hle2 : streetThreshold rows stats ≤ v2
        · simp [topFlag, hle2] at hf2
        · exact le_trans (le_of_not_le hle2) hle1
      · simp [topFlag, h, hle1] at hf1
  · intro r1 h1 r2 h2 hf1 hf2 v2 hv2
    simp only [suburbSummaryRows, List.mem_map] at h1 h2
    obtain ⟨k1, hk1, rfl⟩ := h1
    obtain ⟨k2, hk2, rfl⟩ := h2
    rcases h : suburbAvgLookup stats k1 with _ | v1
    · simp [topFlag, h] at hf1
    · refine ⟨v1, by simp only [h], ?_⟩
      simp only at hv2
      rw [hv2] at hf2
      by_cases hle1 : suburbThreshold rows stats ≤ v1
      · by_cases hle2 : suburbThreshold rows stats ≤ v2
        · simp [topFlag, hle2] at hf2
        · exact le_trans (le_of_not_le hle2) hle1
      · simp [topFlag, h, hle1] at hf1

set_option maxRecDepth 2200 in
/-- Witness for top_flag_ordering: in the exSales run the flagged
street B row has average 1, at least the unflagged street A average
0. -/
theorem top_flag_ordering_witness :
    exSSRowB.avg_cagr = some 1 ∧ (0 : ℚ) ≤ 1 := by
  have h := top_flag_ordering (dropInvalid exSales) (propertyStats exCagrFn (dropInvalid exSales))
  obtain ⟨v1, hv1, hle⟩ := h.1 exSSRowB (by with_unfolding_all decide)
    exSSRowA (by with_unfolding_all decide) (by with_unfolding_all decide)
    (by with_unfolding_all decide) 0 (by with_unfolding_all decide)
  have hb : exSSRowB.avg_cagr = some 1 := by with_unfolding_all rfl
  have : v1 = 1 := by
    rw [hb] at hv1
    exact (Option.some.inj hv1).symm
  exact ⟨hb, this ▸ hle⟩

/-- Helper: every derived growth stat comes from a property group with
at least two qualifying rows, and all its fields are determined by the
first and last sale of that group. -/
theorem propStat_characterization (cagrFn : CagrFn) (rows : List QRow) (p : PropStat)
    (hp : p ∈ propertyStats cagrFn rows) :
    2 ≤ (groupOf rows p.property_id).length ∧
    ∃ first last,
      firstSaleOf (groupOf rows p.property_id) = some first ∧
      lastSaleOf (groupOf rows p.property_id) = some last ∧
      p.first_sale_price = first.purchase_price ∧
      p.last_sale_price = last.purchase_price ∧
      p.last_sale_year = last.sale_year ∧
      p.property_street_name = first.property_street_name ∧
      p.property_locality = first.property_locality ∧
      p.property_post_code = first.property_post_code.getD 0 ∧
      p.years_held =
        ((last.contract_date.days - first.contract_date.days : ℤ) : ℚ) / (1461/4) ∧
      p.cagr = (cagrFn first.purchase_price last.purchase_price p.years_held).1 ∧
      p.total_growth = (cagrFn first.purchase_price last.purchase_price p.years_held).2 := by
  rw [propertyStats, List.mem_filterMap] at hp
  obtain ⟨pid, hpid, heq⟩ := hp
  simp only [propStatFor] at heq
  split at heq
  · exact absurd heq (by simp)
  · split at heq
    · next first last hf hl =>
      obtain rfl := (Option.some.inj heq)
      dsimp only
      refine ⟨by omega, first, last, hf, hl, rfl, rfl, rfl, rfl, rfl, rfl, rfl, rfl, rfl⟩
    · exact absurd heq (by simp)

/-- C6 amended: for a nonempty sales list, every persisted property
growth row is the six-column projection of a derived stat: it carries
property_id, cagr, total_growth, years_held, last_sale_price and
first_sale_price, whose values come from the first and last qualifying
sale of the property; last_sale_year and the denormalized address
fields exist only on the in-memory stat and are dropped by the column
filter. -/
theorem persisted_growth_row_content (cagrFn : CagrFn) (sales : List SaleRow) (db : DB)
    (hs : sales ≠ []) :
    ∀ r, r ∈ (calculate_growth_metrics cagrFn sales db).property_growth →
      ∃ p, p ∈ propertyStats cagrFn (dropInvalid sales) ∧ r = toPGRow p ∧
        r = ⟨p.property_id, p.cagr, p.total_growth, p.years_held,
             p.last_sale_price, p.first_sale_price⟩ ∧
        2 ≤ (groupOf (dropInvalid sales) p.property_id).length ∧
        ∃ first last,
          firstSaleOf (groupOf (dropInvalid sales) p.property_id) = some first ∧
          lastSaleOf (groupOf (dropInvalid sales) p.property_id) = some last ∧
          r.first_sale_price = first.purchase_price ∧
          r.last_sale_price = last.purchase_price ∧
          r.years_held =
            ((last.contract_date.days - first.contract_date.days : ℤ) : ℚ) / (1461/4) ∧
          (r.cagr, r.total_growth) =
            cagrFn first.purchase_price last.purchase_price r.years_held := by
  intro r hr
  rw [pg_table_eq cagrFn sales db hs, List.mem_map] at hr
  obtain ⟨p, hp, rfl⟩ := hr
  obtain ⟨hlen, first, last, hf, hl, h1, h2, h3, h4, h5, h6, h7, h8, h9⟩ :=
    propStat_characterization cagrFn (dropInvalid sales) p hp
  exact ⟨p, hp, rfl, rfl, hlen, first, last, hf, hl, h1, h2, h7, by rw [Prod.ext_iff]; exact ⟨h8, h9⟩⟩

set_option maxRecDepth 2000 in
/-- Witness for persisted_growth_row_content: the persisted row of the
exSalesA run comes from a property group with two qualifying sales. -/
theorem persisted_growth_row_content_witness :
    2 ≤ (groupOf (dropInvalid exSalesA) 10).length := by
  obtain ⟨p, hp, hpg, hrec, hlen, -⟩ :=
    persisted_growth_row_content exCagrFn exSalesA exDB0
      (by with_unfolding_all decide) exPGRowA (by
        rw [pg_table_eq exCagrFn exSalesA exDB0 (by with_unfolding_all decide)]
        simp [propertyStats, dropInvalid, exSalesA, uniqueKeys, uniqueKeysAux, groupOf,
          propStatFor, firstSaleOf, lastSaleOf, sortLe, insertLe, dateLe, toPGRow, exCagrFn,
          exPGRowA]
        norm_num)
  have hid : p.property_id = 10 := by
    have := congrArg PGRow.property_id hrec
    simp [exPGRowA] at this
    exact this.symm
  rw [hid] at hlen
  exact hlen

/-- C8 amended: a property with fewer than two qualifying rows yields
no growth stat, no persisted growth row, and no contribution to any
street-year or suburb-year group; while every street and suburb summary
row counts in total_sales all the qualifying rows of its group,
including those of single-sale properties. -/
theorem few_sales_excluded (cagrFn : CagrFn) (sales : List SaleRow) (db : DB) (pid : ℕ)
    (hfew : (groupOf (dropInvalid sales) pid).length < 2) (hs : sales ≠ []) :
    (∀ p, p ∈ propertyStats cagrFn (dropInvalid sales) → p.property_id ≠ pid) ∧
    (∀ r, r ∈ (calculate_growth_metrics cagrFn sales db).property_growth →
      r.property_id ≠ pid) ∧
    (∀ y k p, p ∈ streetGroup (propertyStats cagrFn (dropInvalid sales)) y k →
      p.property_id ≠ pid) ∧
    (∀ y k p, p ∈ suburbGroup (propertyStats cagrFn (dropInvalid sales)) y k →
      p.property_id ≠ pid) ∧
    (∀ r, r ∈ streetSummaryRows (dropInvalid sales) (propertyStats cagrFn (dropInvalid sales)) →
      r.total_sales =
        (rawStreetGroup (dropInvalid sales) (r.street_name, r.suburb, r.post_code)).length) ∧
    (∀ r, r ∈ suburbSummaryRows (dropInvalid sales) (propertyStats cagrFn (dropInvalid sales)) →
      r.total_sales = (rawSuburbGroup (dropInvalid sales) r.suburb).length) := by
  have hstat : ∀ p, p ∈ propertyStats cagrFn (dropInvalid sales) → p.property_id ≠ pid := by
    intro p hp hpd
    have := (propStat_characterization cagrFn (dropInvalid sales) p hp).1
    rw [hpd] at this
    omega
  refine ⟨hstat, fun r hr => ?_, fun y k p hp => ?_, fun y k p hp => ?_,
    fun r hr => ?_, fun r hr => ?_⟩
  · rw [pg_table_eq cagrFn sales db hs, List.mem_map] at hr
    obtain ⟨p, hp, rfl⟩ := hr
    exact hstat p hp
  · simp only [streetGroup, activeStats, List.mem_filter] at hp
    exact hstat p hp.1.1
  · simp only [suburbGroup, activeStats, List.mem_filter] at hp
    exact hstat p hp.1.1
  · simp only [streetSummaryRows, List.mem_map] at hr
    obtain ⟨k, hk, rfl⟩ := hr
    rfl
  · simp only [suburbSummaryRows, List.mem_map] at hr
    obtain ⟨k, hk, rfl⟩ := hr
    rfl

set_option maxRecDepth 2200 in
/-- Witness for few_sales_excluded: in the exSalesC8 run property 12
has a single (unparseable) raw row, so it is absent from the growth
stats, and the street A summary row counts exactly the qualifying rows
of its group. -/
theorem few_sales_excluded_witness :
    exSSRowC8.total_sales =
      (rawStreetGroup (dropInvalid exSalesC8)
        (exSSRowC8.street_name, exSSRowC8.suburb, exSSRowC8.post_code)).length := by
  have h := few_sales_excluded exCagrFn exSalesC8 exDB0 12
    (by with_unfolding_all decide) (by with_unfolding_all decide)
  exact h.2.2.2.2.1 exSSRowC8 (by with_unfolding_all decide)


/-- Helper: inserting never yields the empty list. -/
theorem insertLe_ne_nil {α : Type} (le : α → α → Bool) (a : α) (l : List α) :
    insertLe le a l ≠ [] := by
  cases l with
  | nil => simp [insertLe]
  | cons x xs =>
    simp only [insertLe]
    split <;> simp

/-- Helper: membership in an insertion. -/
theorem mem_insertLe {α : Type} (le : α → α → Bool) (a w : α) (l : List α) :
    w ∈ insertLe le a l ↔ w = a ∨ w ∈ l := by
  induction l with
  | nil => simp [insertLe]
  | cons x xs ih =>
    simp only [insertLe]
    split
    · simp [List.mem_cons]
    · simp [List.mem_cons, ih]
      tauto

/-- Helper: the head of the stable date sort is the earliest-by-date
record, preferring the earlier listed on ties. -/
theorem sortLe_head_firstMin (l : List QRow) :
    (sortLe dateLe l).head? = firstMin l := by
  induction l with
  | nil => rfl
  | cons x xs ih =>
    show (insertLe dateLe x (sortLe dateLe xs)).head? = _
    rcases hs : sortLe dateLe xs with _ | ⟨h0, t⟩
    · have hnone : firstMin xs = none := by rw [← ih, hs]; rfl
      simp [insertLe, firstMin, hnone]
    · have hsome : firstMin xs = some h0 := by rw [← ih, hs]; rfl
      by_cases hxy : dateLe x h0 = true <;>
        simp [insertLe, firstMin, hsome, hxy]

/-- Helper: the earliest-by-date record carries the minimal day
number. -/
theorem firstMin_minDays (l : List QRow) :
    (firstMin l).map (fun r => r.contract_date.days) = minDays? l := by
  induction l with
  | nil => rfl
  | cons x xs ih =>
    rcases h : firstMin xs with _ | y
    · rw [h] at ih
      simp only [firstMin, minDays?, h, ← ih]
      rfl
    · rw [h] at ih
      simp only [firstMin, minDays?, h, ← ih]
      by_cases hxy : dateLe x y = true
      · have hle : x.contract_date.days ≤ y.contract_date.days := by simpa [dateLe] using hxy
        simp [hxy, min_eq_left hle]
      · have hle : y.contract_date.days ≤ x.contract_date.days := by
          simp [dateLe] at hxy
          omega
        simp [hxy, min_eq_right hle]

/-- Helper: an empty minimal day means an empty list. -/
theorem minDays?_eq_none (l : List QRow) : minDays? l = none ↔ l = [] := by
  cases l with
  | nil => simp [minDays?]
  | cons x xs => rcases hh : minDays? xs with _ | m <;> simp [minDays?, hh]

/-- Helper: the minimal day bounds every member from below. -/
theorem minDays_le (l : List QRow) :
    ∀ m, minDays? l = some m → ∀ r ∈ l, m ≤ r.contract_date.days := by
  induction l with
  | nil => intro m hm; simp [minDays?] at hm
  | cons x xs ih =>
    intro m hm r hr
    rcases hh : minDays? xs with _ | m0 <;> rw [minDays?, hh] at hm <;>
      obtain rfl := (Option.some.inj hm).symm
    · have hxs := (minDays?_eq_none xs).mp hh
      subst hxs
      simp at hr
      subst hr
      exact le_refl _
    · rcases List.mem_cons.mp hr with rfl | hr2
      · exact min_le_left _ _
      · exact le_trans (min_le_right _ _) (ih m0 hh r hr2)

/-- Helper: the earliest-by-date record is the first record in original
order that attains the minimal day number. -/
theorem firstMin_eq_spec (l : List QRow) : firstMin l = specFirstSale l := by
  induction l with
  | nil => rfl
  | cons x xs ih =>
    rcases h : firstMin xs with _ | y
    · have hxs : xs = [] := by
        apply (minDays?_eq_none xs).mp
        have hm := firstMin_minDays xs
        rw [h] at hm
        exact hm.symm
      subst hxs
      simp only [firstMin, specFirstSale, minDays?, h, Option.some_bind]
      rw [List.find?_cons_of_pos _ (by simp)]
    · have hmd := firstMin_minDays xs
      rw [h] at hmd
      have hmdx : minDays? xs = some y.contract_date.days := hmd.symm
      have hspec : specFirstSale xs = some y := ih.symm.trans h
      have hfind : xs.find? (fun r => r.contract_date.days = y.contract_date.days) = some y := by
        rw [specFirstSale, hmdx] at hspec
        simpa using hspec
      by_cases hxy : dateLe x y = true
      · have hle : x.contract_date.days ≤ y.contract_date.days := by simpa [dateLe] using hxy
        have hmin : minDays? (x :: xs) = some x.contract_date.days := by
          simp only [minDays?, hmdx]
          rw [min_eq_left hle]
        rw [specFirstSale, hmin]
        simp only [Option.some_bind]
        rw [List.find?_cons_of_pos _ (by simp)]
        simp [firstMin, h, hxy]
      · have hlt : y.contract_date.days < x.contract_date.days := by
          simp [dateLe] at hxy
          omega
        have hmin : minDays? (x :: xs) = some y.contract_date.days := by
          simp only [minDays?, hmdx]
          rw [min_eq_right (le_of_lt hlt)]
        rw [specFirstSale, hmin]
        simp only [Option.some_bind]
        rw [List.find?_cons_of_neg _ (by simp; omega), hfind]
        simp [firstMin, h, hxy]

/-- Helper: the last element after insertion is the inserted element
exactly when nothing in the list compares at or above it. -/
theorem insertLe_getLast (a : QRow) (l : List QRow) :
    (insertLe dateLe a l).getLast? =
      if l.any (fun w => dateLe a w) then l.getLast? else some a := by
  induction l with
  | nil => simp [insertLe]
  | cons y ys ih =>
    simp only [insertLe]
    by_cases hay : dateLe a y = true
    · rw [if_pos hay]
      simp [List.getLast?_cons_cons, List.any_cons, hay]
    · rw [if_neg hay]
      rcases hi : insertLe dateLe a ys with _ | ⟨z, zs⟩
      · exact absurd hi (insertLe_ne_nil _ _ _)
      · rw [show (y :: z :: zs).getLast? = (z :: zs).getLast? from List.getLast?_cons_cons,
           ← hi, ih]
        by_cases hys : ys.any (fun w => dateLe a w) = true
        · have hysne : ys ≠ [] := by
            rintro rfl
            simp at hys
          rcases ys with _ | ⟨b, bs⟩
          · exact absurd rfl hysne
          · simp [List.any_cons, hay, hys, List.getLast?_cons_cons]
        · simp [List.any_cons, hay, hys]

/-- Helper: insertion preserves sortedness by date. -/
theorem insertLe_pairwise (a : QRow) (l : List QRow)
    (hl : l.Pairwise (fun u v => u.contract_date.days ≤ v.contract_date.days)) :
    (insertLe dateLe a l).Pairwise
      (fun u v => u.contract_date.days ≤ v.contract_date.days) := by
  induction l with
  | nil => simp [insertLe]
  | cons y ys ih =>
    rw [List.pairwise_cons] at hl
    simp only [insertLe]
    by_cases hay : dateLe a y = true
    · have ha : a.contract_date.days ≤ y.contract_date.days := by simpa [dateLe] using hay
      rw [if_pos hay]
      refine List.Pairwise.cons ?_ (List.Pairwise.cons hl.1 hl.2)
      intro b hb
      rcases List.mem_cons.mp hb with rfl | hb2
      · exact ha
      · exact le_trans ha (hl.1 b hb2)
    · have hya : y.contract_date.days ≤ a.contract_date.days := by
        simp [dateLe] at hay
        omega
      rw [if_neg hay]
      refine List.Pairwise.cons ?_ (ih hl.2)
      intro b hb
      rcases (mem_insertLe dateLe a b ys).mp hb with rfl | hb2
      · exact hya
      · exact hl.1 b hb2

/-- Helper: the stable date sort is sorted by date. -/
theorem sortLe_pairwise (l : List QRow) :
    (sortLe dateLe l).Pairwise
      (fun u v => u.contract_date.days ≤ v.contract_date.days) := by
  induction l with
  | nil => simp [sortLe]
  | cons x xs ih =>
    show (insertLe dateLe x (sortLe dateLe xs)).Pairwise _
    exact insertLe_pairwise x _ ih

/-- Helper: the last element of a date-sorted list bounds every member
from above. -/
theorem pairwise_getLast_max (l : List QRow) :
    ∀ z, l.Pairwise (fun u v => u.contract_date.days ≤ v.contract_date.days) →
      l.getLast? = some z → ∀ w ∈ l, w.contract_date.days ≤ z.contract_date.days := by
  induction l with
  | nil => intro z _ hz; simp at hz
  | cons x xs ih =>
    intro z hp hz w hw
    rw [List.pairwise_cons] at hp
    cases xs with
    | nil =>
      simp at hz hw
      subst hz
      subst hw
      exact le_refl _
    | cons b bs =>
      rw [List.getLast?_cons_cons] at hz
      rcases List.mem_cons.mp hw with rfl | hw2
      · exact hp.1 z (List.mem_of_getLast?_eq_some hz)
      · exact ih z hp.2 hz w hw2

/-- Helper: the last element of the stable date sort is the
latest-by-date record, preferring the later listed on ties. -/
theorem sortLe_getLast_lastMax (l : List QRow) :
    (sortLe dateLe l).getLast? = lastMax l := by
  induction l with
  | nil => rfl
  | cons x xs ih =>
    show (insertLe dateLe x (sortLe dateLe xs)).getLast? = _
    rw [insertLe_getLast]
    rcases hz : (sortLe dateLe xs).getLast? with _ | z
    · have hs : sortLe dateLe xs = [] := (List.getLast?_eq_none_iff).mp hz
      have hnone : lastMax xs = none := by rw [← ih, hz]
      rw [hs]
      simp [lastMax, hnone]
    · have hsome : lastMax xs = some z := by rw [← ih]; exact hz
      have hmax : ∀ w ∈ sortLe dateLe xs,
          w.contract_date.days ≤ z.contract_date.days :=
        pairwise_getLast_max _ z (sortLe_pairwise xs) hz
      by_cases hxz : dateLe x z = true
      · have hany : (sortLe dateLe xs).any (fun w => dateLe x w) = true := by
          rw [List.any_eq_true]
          exact ⟨z, List.mem_of_getLast?_eq_some hz, hxz⟩
        rw [if_pos hany]
        simp [lastMax, hsome, hxz]
      · have hany : (sortLe dateLe xs).any (fun w => dateLe x w) = false := by
          rw [List.any_eq_false]
          intro w hw hpw
          have hwz := hmax w hw
          have hxw : x.contract_date.days ≤ w.contract_date.days := by
            simpa [dateLe] using hpw
          simp [dateLe] at hxz
          omega
        rw [hany]
        simp [lastMax, hsome, hxz]

/-- Helper: the latest-by-date record carries the maximal day
number. -/
theorem lastMax_maxDays (l : List QRow) :
    (lastMax l).map (fun r => r.contract_date.days) = maxDays? l := by
  induction l with
  | nil => rfl
  | cons x xs ih =>
    rcases h : lastMax xs with _ | y
    · rw [h] at ih
      simp only [lastMax, maxDays?, h, ← ih]
      rfl
    · rw [h] at ih
      simp only [lastMax, maxDays?, h, ← ih]
      by_cases hxy : dateLe x y = true
      · have hle : x.contract_date.days ≤ y.contract_date.days := by simpa [dateLe] using hxy
        simp [hxy, max_eq_right hle]
      · have hle : y.contract_date.days ≤ x.contract_date.days := by
          simp [dateLe] at hxy
          omega
        simp [hxy, max_eq_left hle]

/-- Helper: an empty maximal day means an empty list. -/
theorem maxDays?_eq_none (l : List QRow) : maxDays? l = none ↔ l = [] := by
  cases l with
  | nil => simp [maxDays?]
  | cons x xs => rcases hh : maxDays? xs with _ | m <;> simp [maxDays?, hh]

/-- Helper: the maximal day bounds every member from above. -/
theorem maxDays_ge (l : List QRow) :
    ∀ m, maxDays? l = some m → ∀ r ∈ l, r.contract_date.days ≤ m := by
  induction l with
  | nil => intro m hm; simp [maxDays?] at hm
  | cons x xs ih =>
    intro m hm r hr
    rcases hh : maxDays? xs with _ | m0 <;> rw [maxDays?, hh] at hm <;>
      obtain rfl := (Option.some.inj hm).symm
    · have hxs := (maxDays?_eq_none xs).mp hh
      subst hxs
      simp at hr
      subst hr
      exact le_refl _
    · rcases List.mem_cons.mp hr with rfl | hr2
      · exact le_max_left _ _
      · exact le_trans (ih m0 hh r hr2) (le_max_right _ _)

/-- Helper: the latest-by-date record is the last record in original
order that attains the maximal day number. -/
theorem lastMax_eq_spec (l : List QRow) : lastMax l = specLastSale l := by
  induction l with
  | nil => rfl
  | cons x xs ih =>
    rcases h : lastMax xs with _ | y
    · have hxs : xs = [] := by
        apply (maxDays?_eq_none xs).mp
        have hm := lastMax_maxDays xs
        rw [h] at hm
        exact hm.symm
      subst hxs
      simp only [lastMax, specLastSale, maxDays?, h, List.reverse_cons, List.reverse_nil,
        List.nil_append, Option.some_bind]
      rw [List.find?_cons_of_pos _ (by simp)]
    · have hmd := lastMax_maxDays xs
      rw [h] at hmd
      have hmdx : maxDays? xs = some y.contract_date.days := hmd.symm
      have hspec : specLastSale xs = some y := ih.symm.trans h
      have hfind : xs.reverse.find?
          (fun r => r.contract_date.days = y.contract_date.days) = some y := by
        rw [specLastSale, hmdx] at hspec
        simpa using hspec
      by_cases hxy : dateLe x y = true
      · have hle : x.contract_date.days ≤ y.contract_date.days := by simpa [dateLe] using hxy
        have hmax : maxDays? (x :: xs) = some y.contract_date.days := by
          simp only [maxDays?, hmdx]
          rw [max_eq_right hle]
        rw [specLastSale, hmax]
        simp only [Option.some_bind]
        rw [List.reverse_cons, List.find?_append, hfind]
        simp [lastMax, h, hxy]
      · have hlt : y.contract_date.days < x.contract_date.days := by
          simp [dateLe] at hxy
          omega
        have hmax : maxDays? (x :: xs) = some x.contract_date.days := by
          simp only [maxDays?, hmdx]
          rw [max_eq_left (le_of_lt hlt)]
        rw [specLastSale, hmax]
        simp only [Option.some_bind]
        have hnone : xs.reverse.find?
            (fun r => r.contract_date.days = x.contract_date.days) = none := by
          rw [List.find?_eq_none]
          intro w hw
          have hwy := maxDays_ge xs y.contract_date.days hmdx w (List.mem_reverse.mp hw)
          simp
          omega
        rw [List.reverse_cons, List.find?_append, hnone]
        rw [List.find?_cons_of_pos _ (by simp)]
        simp [lastMax, h, hxy]

/-- C7: the first and last sale chosen through the stable date sort are
exactly the spec-side extremal records: the first sale is the record
with the earliest contract date, ties resolved to the earliest record
in original row order, and the last sale is the record with the latest
contract date, ties resolved to the latest record in original row
order; both are functions of the group, so repeated runs on the same
input pick the same records. -/
theorem first_last_sale_spec (l : List QRow) :
    firstSaleOf l = specFirstSale l ∧ lastSaleOf l = specLastSale l :=
  ⟨(sortLe_head_firstMin l).trans (firstMin_eq_spec l),
   (sortLe_getLast_lastMax l).trans (lastMax_eq_spec l)⟩


end PropRoo
